import Mathlib

/-!
Verification of the dumac disk-usage core: a shallow embedding of
the C bulk-directory decoder (lib.c, get_dir_info), the Go recursive
aggregator (main.go, handleDir) and the sharded inode tracker
(inode.go, checkAndAddInode), together with theorems about the
properties the specification states for them.
-/

/-! ## Byte-level model of the attribute-buffer decoder (lib.c) -/

/-- Byte read from the enumeration buffer; positions past the end of the
usable data return 0 (the C code would read whatever bytes follow; the
value is irrelevant because such reads are tracked by the bounds flag). -/
def byteAt (buf : List Nat) (i : Nat) : Nat := buf.getD i 0

/-- Little-endian 32-bit read, as the C dereferences of uint32 fields. -/
def readU32 (buf : List Nat) (off : Nat) : Nat :=
  byteAt buf off + 256 * byteAt buf (off + 1) +
    65536 * byteAt buf (off + 2) + 16777216 * byteAt buf (off + 3)

/-- Little-endian 64-bit read, as the C dereferences of uint64/off_t fields. -/
def readU64 (buf : List Nat) (off : Nat) : Nat :=
  readU32 buf off + 4294967296 * readU32 buf (off + 4)

/-- True when a read of sz bytes starting at off stays inside the buffer. -/
def chk (buf : List Nat) (off sz : Nat) : Bool := decide (off + sz ≤ buf.length)

/-- ATTR_CMN_NAME from sys/attr.h. -/
def attrCmnName : Nat := 0x00000001

/-- ATTR_CMN_OBJTYPE from sys/attr.h. -/
def attrCmnObjtype : Nat := 0x00000002

/-- ATTR_CMN_FILEID from sys/attr.h. -/
def attrCmnFileid : Nat := 0x02000000

/-- ATTR_CMN_ERROR from sys/attr.h. -/
def attrCmnError : Nat := 0x20000000

/-- ATTR_FILE_ALLOCSIZE from sys/attr.h. -/
def attrFileAllocsize : Nat := 0x00000400

/-- Object type VNON. -/
def vnon : Nat := 0

/-- Object type VREG (regular file). -/
def vreg : Nat := 1

/-- Object type VDIR (directory). -/
def vdir : Nat := 2

/-- Object type VLNK (symbolic link). -/
def vlnk : Nat := 5

/-- blocks_from_bytes from lib.c: (bytes + 511) / 512, the 512-byte block
count of an allocation (du default rounding). -/
def blocks_from_bytes (bytes : Nat) : Nat := (bytes + 511) / 512

/-- is_dot_or_dotdot from lib.c, applied to the null-terminated name that
starts at position p of the buffer (46 is the period character). -/
def is_dot_or_dotdot (buf : List Nat) (p : Nat) : Bool :=
  (byteAt buf p == 46 && byteAt buf (p + 1) == 0) ||
    (byteAt buf p == 46 && byteAt buf (p + 1) == 46 && byteAt buf (p + 2) == 0)

/-- The filename_length bytes memcpy takes for a subdirectory name. -/
def nameBytes (buf : List Nat) (p len : Nat) : List Nat :=
  (List.range len).map (fun i => byteAt buf (p + i))

/-- Outcome of decoding one record: at most one file (blocks, inode), at
most one subdirectory name, whether every memory access of this record
stayed inside the buffer, and the cursor for the next record (start of
this record plus its length prefix, exactly the C advance
entry += the uint32 at entry). -/
structure EntryResult where
  file : Option (Nat × Nat)
  subdir : Option (List Nat)
  ok : Bool
  nxt : Nat
deriving Repr, DecidableEq

/-- The commonattr word of the returned attribute_set_t of the record at
off (the set sits right after the 4-byte length prefix). -/
def commonattrAt (buf : List Nat) (off : Nat) : Nat := readU32 buf (off + 4)

/-- The fileattr word of the returned attribute_set_t of the record at off
(offset 12 inside the 20-byte set). -/
def fileattrAt (buf : List Nat) (off : Nat) : Nat := readU32 buf (off + 16)

/-- Start of the name bytes: the attrreference_t sits at off + 24 and the
name lives at attr_dataoffset bytes past that header. -/
def namePosAt (buf : List Nat) (off : Nat) : Nat := off + 24 + readU32 buf (off + 24)

/-- Cursor position of the per-entry error code field: after the fixed
header, plus 8 when a name attribute was consumed first. -/
def errPosAt (buf : List Nat) (off : Nat) : Nat :=
  off + 24 + (if Nat.land (commonattrAt buf off) attrCmnName ≠ 0 then 8 else 0)

/-- Cursor position of the object-type field: after the error field when
the error attribute is present. -/
def objPosAt (buf : List Nat) (off : Nat) : Nat :=
  errPosAt buf off + (if Nat.land (commonattrAt buf off) attrCmnError ≠ 0 then 4 else 0)

/-- The object type the decoder sees for the record at off: the decoded
field when ATTR_CMN_OBJTYPE was returned, VNON otherwise. -/
def objAt (buf : List Nat) (off : Nat) : Nat :=
  if Nat.land (commonattrAt buf off) attrCmnObjtype ≠ 0 then
    readU32 buf (objPosAt buf off)
  else vnon

/-- Both header reads of a record: the 4-byte length prefix and the
20-byte attribute_set_t. -/
def hdrOk (buf : List Nat) (off : Nat) : Bool :=
  chk buf off 4 && chk buf (off + 4) 20

/-- Classification tail of get_dir_info: a regular file with a returned
allocation size is recorded with its block count and inode; a symbolic
link is acknowledged and skipped; a directory with a name is recorded as
a subdirectory; everything else is skipped. -/
def decodeFinal (buf : List Nat) (nxt f obj inode : Nat) (name : Option (Nat × Nat))
    (fa : Nat) (ok : Bool) : EntryResult :=
  if obj = vreg ∧ Nat.land fa attrFileAllocsize ≠ 0 then
    { file := some (blocks_from_bytes (readU64 buf f), inode), subdir := none,
      ok := ok && chk buf f 8, nxt := nxt }
  else if obj = vlnk then
    { file := none, subdir := none, ok := ok, nxt := nxt }
  else
    match name with
    | some np =>
        if obj = vdir then
          { file := none, subdir := some (nameBytes buf np.1 np.2), ok := ok, nxt := nxt }
        else
          { file := none, subdir := none, ok := ok, nxt := nxt }
    | none => { file := none, subdir := none, ok := ok, nxt := nxt }

/-- Inode step of get_dir_info: consume the 8-byte file id when
ATTR_CMN_FILEID was returned, else use inode 0. -/
def decodeKind (buf : List Nat) (nxt f obj : Nat) (name : Option (Nat × Nat))
    (ca fa : Nat) (ok : Bool) : EntryResult :=
  if Nat.land ca attrCmnFileid ≠ 0 then
    decodeFinal buf nxt (f + 8) obj (readU64 buf f) name fa (ok && chk buf f 8)
  else
    decodeFinal buf nxt f obj 0 name fa ok

/-- Object-type step of get_dir_info: consume the 4-byte type when
ATTR_CMN_OBJTYPE was returned, else the type is VNON. -/
def decodeClass (buf : List Nat) (nxt f : Nat) (name : Option (Nat × Nat))
    (ca fa : Nat) (ok : Bool) : EntryResult :=
  if Nat.land ca attrCmnObjtype ≠ 0 then
    decodeKind buf nxt (f + 4) (readU32 buf f) name ca fa (ok && chk buf f 4)
  else
    decodeKind buf nxt f vnon name ca fa ok

/-- Error step of get_dir_info: when ATTR_CMN_ERROR was returned, consume
the 4-byte code; a nonzero code skips the entry (a diagnostic is printed)
while the record advance by the length prefix already happened. -/
def decodeTail (buf : List Nat) (nxt f : Nat) (name : Option (Nat × Nat))
    (ca fa : Nat) (ok : Bool) : EntryResult :=
  if Nat.land ca attrCmnError ≠ 0 then
    if readU32 buf f ≠ 0 then
      { file := none, subdir := none, ok := ok && chk buf f 4, nxt := nxt }
    else
      decodeClass buf nxt (f + 4) name ca fa (ok && chk buf f 4)
  else
    decodeClass buf nxt f name ca fa ok

/-- One iteration of the record loop of get_dir_info at offset off: read
the length prefix, the returned-attributes set, then the name attribute;
a name equal to period or double period ends the entry at once; otherwise
decoding proceeds with the error, type, inode and size fields. The next
cursor is always off plus the length prefix. -/
def decodeEntry (buf : List Nat) (off : Nat) : EntryResult :=
  if Nat.land (commonattrAt buf off) attrCmnName ≠ 0 then
    if is_dot_or_dotdot buf (namePosAt buf off) then
      { file := none, subdir := none,
        ok := hdrOk buf off && chk buf (off + 24) 8 &&
          chk buf (namePosAt buf off) (readU32 buf (off + 28)),
        nxt := off + readU32 buf off }
    else
      decodeTail buf (off + readU32 buf off) (off + 32)
        (some (namePosAt buf off, readU32 buf (off + 28)))
        (commonattrAt buf off) (fileattrAt buf off)
        (hdrOk buf off && chk buf (off + 24) 8 &&
          chk buf (namePosAt buf off) (readU32 buf (off + 28)))
  else
    decodeTail buf (off + readU32 buf off) (off + 24) none
      (commonattrAt buf off) (fileattrAt buf off) (hdrOk buf off)

/-- Accumulated state of one get_dir_info call: the files array (block
count and inode per file), the subdirectory names, and whether any record
read touched bytes outside the buffer. -/
structure DecodeAcc where
  files : List (Nat × Nat)
  subdirs : List (List Nat)
  oob : Bool
deriving Repr, DecidableEq

/-- Empty accumulator at the start of get_dir_info. -/
def initAcc : DecodeAcc := { files := [], subdirs := [], oob := false }

/-- Append the outcome of one record to the accumulated arrays. -/
def pushEntry (acc : DecodeAcc) (e : EntryResult) : DecodeAcc :=
  { files := acc.files ++ e.file.toList,
    subdirs := acc.subdirs ++ e.subdir.toList,
    oob := acc.oob || !e.ok }

/-- The inner loop of get_dir_info over one filled buffer: decode exactly
the reported record count, each time advancing by the length prefix read
from the record itself. -/
def decodeBuf (buf : List Nat) : Nat → Nat → DecodeAcc → DecodeAcc
  | 0, _, acc => acc
  | Nat.succ n, off, acc =>
      decodeBuf buf n (decodeEntry buf off).nxt (pushEntry acc (decodeEntry buf off))

/-- Record-level well-formedness of the first n records starting at off:
every access of each record is in bounds, chaining by the length prefix. -/
def wfFrom (buf : List Nat) : Nat → Nat → Bool
  | _, 0 => true
  | off, Nat.succ n => (decodeEntry buf off).ok && wfFrom buf (decodeEntry buf off).nxt n

/-- The outer loop of get_dir_info: one element per getattrlistbulk call,
carrying the returned count and the bytes the kernel filled. A count of
zero ends the directory normally; a negative count ends it with a
diagnostic (the Boolean of the result); either way the arrays accumulated
so far are returned unchanged. -/
def get_dir_info_loop : List (Int × List Nat) → DecodeAcc → DecodeAcc × Bool
  | [], acc => (acc, false)
  | (r, buf) :: rest, acc =>
      if r ≤ 0 then (acc, decide (r < 0))
      else get_dir_info_loop rest (decodeBuf buf r.toNat 0 acc)

/-! ## Tree-level model of the Go aggregator (main.go) -/

/-- One regular file as get_dir_info reports it to the aggregator:
the on-disk allocated byte size (ATTR_FILE_ALLOCSIZE) and the inode
(ATTR_CMN_FILEID). The C stores blocks_from_bytes of the size in
file_info_t; the composition is modelled inside handleDir. -/
structure GoFile where
  allocSize : Nat
  inode : Nat

/-- Abstract directory tree as the run observes it: whether os.Open of
this directory succeeds, the regular files get_dir_info returns for it,
and its subdirectories. -/
inductive FSDir where
  | node (openable : Bool) (files : List GoFile) (subdirs : List FSDir)

mutual

/-- handleDir from main.go. A failed os.Open panics, which kills the
whole process (a panic inside any goroutine is fatal): the value none
models that abort. Otherwise the directory total is the sum of
blocks times 512 over its files plus the recursively aggregated child
totals; no inode deduplication happens on this path. -/
def handleDir : FSDir → Option Nat
  | FSDir.node openable files subdirs =>
      if openable then
        match handleSubdirs subdirs with
        | some childTotal =>
            some (files.foldl (fun s f => s + blocks_from_bytes f.allocSize * 512) 0
              + childTotal)
        | none => none
      else none

/-- The goroutine fan-out over subdirectories: every child total is
awaited and summed; a panic in any child aborts the run. -/
def handleSubdirs : List FSDir → Option Nat
  | [] => some 0
  | d :: ds =>
      match handleDir d, handleSubdirs ds with
      | some a, some b => some (a + b)
      | _, _ => none

end

mutual

/-- Every directory of the tree can be opened. -/
def allOpen : FSDir → Bool
  | FSDir.node openable _ subdirs => openable && allOpenList subdirs

/-- Every directory of every tree in the list can be opened. -/
def allOpenList : List FSDir → Bool
  | [] => true
  | d :: ds => allOpen d && allOpenList ds

end

mutual

/-- All regular files of the tree, in traversal order. -/
def allFiles : FSDir → List GoFile
  | FSDir.node _ files subdirs => files ++ allFilesList subdirs

/-- All regular files of the trees in the list. -/
def allFilesList : List FSDir → List GoFile
  | [] => []
  | d :: ds => allFiles d ++ allFilesList ds

end

/-- Modelled from the words of the specification for comparison: the sum
over all files of the allocated size divided by 512 rounded upward. -/
def specTotalBlocks (d : FSDir) : Nat :=
  ((allFiles d).map (fun f => (f.allocSize + 511) / 512)).sum

/-- The inodes of all files of the tree, with multiplicity. -/
def allInodes (d : FSDir) : List Nat := (allFiles d).map (fun f => f.inode)

/-! ## Model of the sharded inode tracker (inode.go) -/

/-- The 256 independently locked shards, each holding the set of inodes
already claimed (the Go map is a set; a list without a membership
re-insertion models it). -/
def ShardState : Type := Fin 256 → List Nat

/-- Shard selected for an inode: inode modulo the shard count. -/
def shardIdx (inode : Nat) : Fin 256 := ⟨inode % 256, Nat.mod_lt _ (by omega)⟩

/-- All shards start empty. -/
def initShards : ShardState := fun _ => []

/-- checkAndAddInode from inode.go: under the lock of the shard of the
inode, report false if the inode is already present, otherwise insert it
and report true. -/
def checkAndAddInode (inode : Nat) (s : ShardState) : Bool × ShardState :=
  if inode ∈ s (shardIdx inode) then (false, s)
  else (true, fun j => if j = shardIdx inode then inode :: s j else s j)

/-- A sequence of claim calls in one run, in the order the per-shard
locks serialize them; returns every call result and the final state. -/
def runClaims : List Nat → ShardState → List Bool × ShardState
  | [], s => ([], s)
  | x :: xs, s =>
      ((checkAndAddInode x s).1 :: (runClaims xs (checkAndAddInode x s).2).1,
        (runClaims xs (checkAndAddInode x s).2).2)

/-- The call results of a run started from the empty tracker. -/
def claimResults (cs : List Nat) : List Bool := (runClaims cs initShards).1

/-- An inode is visible in the tracker state (it sits in its shard). -/
def seen (s : ShardState) (x : Nat) : Prop := x ∈ s (shardIdx x)

instance (s : ShardState) (x : Nat) : Decidable (seen s x) :=
  inferInstanceAs (Decidable (x ∈ s (shardIdx x)))

/-! ## Concrete inputs used by witnesses and counterexamples -/

/-- Well-formed 44-byte record of a regular file: length prefix 44,
returned attributes OBJTYPE and FILEID, fileattr ALLOCSIZE, object type
VREG, inode 7, allocated size 1 byte. -/
def bufReg : List Nat :=
  [44,0,0,0, 2,0,0,2, 0,0,0,0, 0,0,0,0, 0,4,0,0, 0,0,0,0,
   1,0,0,0, 7,0,0,0,0,0,0,0, 1,0,0,0,0,0,0,0]

/-- Record carrying a per-entry error: length prefix 28, returned
attributes ERROR only, error code 13. -/
def bufErr : List Nat :=
  [28,0,0,0, 0,0,0,32, 0,0,0,0, 0,0,0,0, 0,0,0,0, 0,0,0,0, 13,0,0,0]

/-- Record of the period entry: length prefix 38, returned attributes
NAME and OBJTYPE, attrreference (offset 12, length 2), object type VDIR,
name bytes 46 0. -/
def bufDot : List Nat :=
  [38,0,0,0, 3,0,0,0, 0,0,0,0, 0,0,0,0, 0,0,0,0, 0,0,0,0,
   12,0,0,0, 2,0,0,0, 2,0,0,0, 46,0]

/-- Regular-file record whose allocated-size attribute is absent: length
prefix 36, returned attributes OBJTYPE and FILEID, fileattr 0, object
type VREG, inode 9. -/
def bufRegNoSize : List Nat :=
  [36,0,0,0, 2,0,0,2, 0,0,0,0, 0,0,0,0, 0,0,0,0, 0,0,0,0,
   1,0,0,0, 9,0,0,0,0,0,0,0]

/-- Truncated buffer: the record announces a 24-byte span but only the
4-byte length prefix is inside the buffer. -/
def bufTrunc : List Nat := [24,0,0,0]

/-- Directory holding two entries that share inode 42, one allocated
byte each: a hard link discovered twice. -/
def linkTree : FSDir := FSDir.node true [⟨1, 42⟩, ⟨1, 42⟩] []

/-- Readable root with one unreadable subdirectory and one readable
sibling holding a one-byte file. -/
def permTree : FSDir :=
  FSDir.node true [] [FSDir.node false [] [], FSDir.node true [⟨1, 5⟩] []]

/-- Root holding a single one-byte file. -/
def oneByteTree : FSDir := FSDir.node true [⟨1, 7⟩] []

/-- Fully readable two-level tree with three files of distinct inodes
and allocated sizes 1, 513 and 0 bytes. -/
def witnessTree : FSDir :=
  FSDir.node true [⟨1, 1⟩, ⟨513, 2⟩] [FSDir.node true [⟨0, 3⟩] []]

/-! ## Helper lemmas about the record decoder -/

/-- Every branch of the classification tail leaves the next-record cursor
untouched. -/
theorem decodeFinal_nxt (buf : List Nat) (nxt f obj inode : Nat)
    (name : Option (Nat × Nat)) (fa : Nat) (ok : Bool) :
    (decodeFinal buf nxt f obj inode name fa ok).nxt = nxt := by
  unfold decodeFinal
  split
  · rfl
  · split
    · rfl
    · split
      · split <;> rfl
      · rfl

/-- The inode step leaves the next-record cursor untouched. -/
theorem decodeKind_nxt (buf : List Nat) (nxt f obj : Nat)
    (name : Option (Nat × Nat)) (ca fa : Nat) (ok : Bool) :
    (decodeKind buf nxt f obj name ca fa ok).nxt = nxt := by
  unfold decodeKind
  split <;> rw [decodeFinal_nxt]

/-- The object-type step leaves the next-record cursor untouched. -/
theorem decodeClass_nxt (buf : List Nat) (nxt f : Nat)
    (name : Option (Nat × Nat)) (ca fa : Nat) (ok : Bool) :
    (decodeClass buf nxt f name ca fa ok).nxt = nxt := by
  unfold decodeClass
  split <;> rw [decodeKind_nxt]

/-- The error step leaves the next-record cursor untouched. -/
theorem decodeTail_nxt (buf : List Nat) (nxt f : Nat)
    (name : Option (Nat × Nat)) (ca fa : Nat) (ok : Bool) :
    (decodeTail buf nxt f name ca fa ok).nxt = nxt := by
  unfold decodeTail
  split
  · split
    · rfl
    · rw [decodeClass_nxt]
  · rw [decodeClass_nxt]

/-- The decoder always advances to the next record by the length prefix
of the current one, whatever the record contains. -/
theorem decodeEntry_nxt (buf : List Nat) (off : Nat) :
    (decodeEntry buf off).nxt = off + readU32 buf off := by
  unfold decodeEntry
  split
  · split
    · rfl
    · rw [decodeTail_nxt]
  · rw [decodeTail_nxt]

/-- Without the allocated-size bit the classification tail never records
a file. -/
theorem decodeFinal_file_none (buf : List Nat) (nxt f obj inode : Nat)
    (name : Option (Nat × Nat)) (fa : Nat) (ok : Bool)
    (h : Nat.land fa attrFileAllocsize = 0) :
    (decodeFinal buf nxt f obj inode name fa ok).file = none := by
  unfold decodeFinal
  split
  · rename_i hc
    exact absurd h hc.2
  · split
    · rfl
    · split
      · split <;> rfl
      · rfl

/-- Without the allocated-size bit the inode step never records a file. -/
theorem decodeKind_file_none (buf : List Nat) (nxt f obj : Nat)
    (name : Option (Nat × Nat)) (ca fa : Nat) (ok : Bool)
    (h : Nat.land fa attrFileAllocsize = 0) :
    (decodeKind buf nxt f obj name ca fa ok).file = none := by
  unfold decodeKind
  split <;> rw [decodeFinal_file_none _ _ _ _ _ _ _ _ h]

/-- Without the allocated-size bit the object-type step never records a
file. -/
theorem decodeClass_file_none (buf : List Nat) (nxt f : Nat)
    (name : Option (Nat × Nat)) (ca fa : Nat) (ok : Bool)
    (h : Nat.land fa attrFileAllocsize = 0) :
    (decodeClass buf nxt f name ca fa ok).file = none := by
  unfold decodeClass
  split <;> rw [decodeKind_file_none _ _ _ _ _ _ _ _ h]

/-- Without the allocated-size bit the error step never records a file. -/
theorem decodeTail_file_none (buf : List Nat) (nxt f : Nat)
    (name : Option (Nat × Nat)) (ca fa : Nat) (ok : Bool)
    (h : Nat.land fa attrFileAllocsize = 0) :
    (decodeTail buf nxt f name ca fa ok).file = none := by
  unfold decodeTail
  split
  · split
    · rfl
    · rw [decodeClass_file_none _ _ _ _ _ _ _ h]
  · rw [decodeClass_file_none _ _ _ _ _ _ _ h]

/-- Without the allocated-size bit of its record no file is recorded. -/
theorem decodeEntry_file_none (buf : List Nat) (off : Nat)
    (h : Nat.land (fileattrAt buf off) attrFileAllocsize = 0) :
    (decodeEntry buf off).file = none := by
  unfold decodeEntry
  split
  · split
    · rfl
    · rw [decodeTail_file_none _ _ _ _ _ _ _ h]
  · rw [decodeTail_file_none _ _ _ _ _ _ _ h]

/-- A returned error attribute with a nonzero code makes the error step
skip the whole entry. -/
theorem decodeTail_err_skip (buf : List Nat) (nxt f : Nat)
    (name : Option (Nat × Nat)) (ca fa : Nat) (ok : Bool)
    (hca : Nat.land ca attrCmnError ≠ 0) (he : readU32 buf f ≠ 0) :
    decodeTail buf nxt f name ca fa ok =
      { file := none, subdir := none, ok := ok && chk buf f 4, nxt := nxt } := by
  unfold decodeTail
  rw [if_pos hca, if_pos he]

/-! ## Claims about the record decoder -/

/-- Claim C8: for every decoded record whose returned-attributes mask
has the per-entry error bit set with a nonzero error code, the decoder
skips classification of that entry (no file and no subdirectory is
recorded, so it contributes 0) while still advancing to the next record
by the length prefix, and the decode of the directory continues with the
following records. -/
theorem C8_theorem (buf : List Nat) (off : Nat)
    (h1 : Nat.land (commonattrAt buf off) attrCmnError ≠ 0)
    (h2 : readU32 buf (errPosAt buf off) ≠ 0) :
    (decodeEntry buf off).file = none ∧ (decodeEntry buf off).subdir = none ∧
      (decodeEntry buf off).nxt = off + readU32 buf off := by
  unfold decodeEntry
  by_cases hn : Nat.land (commonattrAt buf off) attrCmnName ≠ 0
  · have hpos : errPosAt buf off = off + 32 := by
      unfold errPosAt
      rw [if_pos hn]
    rw [if_pos hn]
    by_cases hd : is_dot_or_dotdot buf (namePosAt buf off) = true
    · rw [if_pos hd]
      exact ⟨rfl, rfl, rfl⟩
    · rw [if_neg hd, decodeTail_err_skip _ _ _ _ _ _ _ h1 (hpos ▸ h2)]
      exact ⟨rfl, rfl, rfl⟩
  · have hpos : errPosAt buf off = off + 24 := by
      unfold errPosAt
      rw [if_neg hn]
    rw [if_neg hn, decodeTail_err_skip _ _ _ _ _ _ _ h1 (hpos ▸ h2)]
    exact ⟨rfl, rfl, rfl⟩

/-- Witness for C8 on the concrete error record. -/
theorem C8_witness :
    (decodeEntry bufErr 0).file = none ∧ (decodeEntry bufErr 0).subdir = none ∧
      (decodeEntry bufErr 0).nxt = 0 + readU32 bufErr 0 :=
  C8_theorem bufErr 0 (by decide) (by decide)

/-- Claim C9: entries named period or double period are detected by
name, never classified, never recorded as files or subdirectories (so
they contribute 0 and, since recursion runs only over recorded
subdirectories, are never recursed into), and the decode advances past
them by the length prefix. -/
theorem C9_theorem (buf : List Nat) (off : Nat)
    (h1 : Nat.land (commonattrAt buf off) attrCmnName ≠ 0)
    (h2 : (byteAt buf (namePosAt buf off) = 46 ∧ byteAt buf (namePosAt buf off + 1) = 0) ∨
      (byteAt buf (namePosAt buf off) = 46 ∧ byteAt buf (namePosAt buf off + 1) = 46 ∧
        byteAt buf (namePosAt buf off + 2) = 0)) :
    (decodeEntry buf off).file = none ∧ (decodeEntry buf off).subdir = none ∧
      (decodeEntry buf off).nxt = off + readU32 buf off := by
  have hd : is_dot_or_dotdot buf (namePosAt buf off) = true := by
    unfold is_dot_or_dotdot
    rcases h2 with ⟨a, b⟩ | ⟨a, b, c⟩
    · simp [a, b]
    · simp [a, b, c]
  unfold decodeEntry
  rw [if_pos h1, if_pos hd]
  exact ⟨rfl, rfl, rfl⟩

/-- Witness for C9 on the concrete period record. -/
theorem C9_witness :
    (decodeEntry bufDot 0).file = none ∧ (decodeEntry bufDot 0).subdir = none ∧
      (decodeEntry bufDot 0).nxt = 0 + readU32 bufDot 0 :=
  C9_theorem bufDot 0 (by decide) (Or.inl (by decide))

/-- Claim C10: a record classified Regular whose allocated-size bit is
absent from the returned-attributes mask records no file entry, so it
contributes 0 to the directory total instead of reading an assumed
size field. -/
theorem C10_theorem (buf : List Nat) (off : Nat)
    (_hobj : objAt buf off = vreg)
    (hfa : Nat.land (fileattrAt buf off) attrFileAllocsize = 0) :
    (decodeEntry buf off).file = none :=
  decodeEntry_file_none buf off hfa

/-- Witness for C10 on the concrete sizeless regular-file record. -/
theorem C10_witness : (decodeEntry bufRegNoSize 0).file = none :=
  C10_theorem bufRegNoSize 0 (by decide) (by decide)

/-- On a chain of well-formed records the decode loop never sets the
out-of-bounds flag. -/
theorem decodeBuf_oob_of_wf (buf : List Nat) (n : Nat) :
    ∀ (off : Nat) (acc : DecodeAcc), wfFrom buf off n = true →
      (decodeBuf buf n off acc).oob = acc.oob := by
  induction n with
  | zero => intro off acc _; rfl
  | succ n ih =>
      intro off acc h
      unfold wfFrom at h
      rw [Bool.and_eq_true] at h
      unfold decodeBuf
      rw [ih _ _ h.2]
      simp [pushEntry, h.1]

/-- Claim C4, amended: the decoder validates neither a zero length
prefix nor truncation; it decodes exactly the reported record count,
advancing by the raw length prefix of each record, and it stays inside
the buffer bounds only when every record of the chain is well formed.
A truncated record makes it read outside the buffer instead of
stopping early (see the counterexample). -/
theorem C4_amended_theorem (buf : List Nat) (n : Nat) (h : wfFrom buf 0 n = true) :
    (decodeBuf buf n 0 initAcc).oob = false :=
  decodeBuf_oob_of_wf buf n 0 initAcc h

/-- Witness for C4 on the concrete well-formed one-record buffer. -/
theorem C4_witness : wfFrom bufReg 0 1 = true ∧ (decodeBuf bufReg 1 0 initAcc).oob = false :=
  ⟨by decide, C4_amended_theorem bufReg 1 (by decide)⟩

/-- Counterexample to C4 as stated: on the truncated record of bufTrunc
the decoder does not stop early without reading outside the buffer; it
reads the 20-byte attribute set past the end of the 4-byte buffer, so
the out-of-bounds flag is raised. -/
theorem C4_counterexample : (decodeBuf bufTrunc 1 0 initAcc).oob = true := by decide

/-- Claim C7: when the bulk-enumeration primitive returns a negative
result mid-directory, the directory result is the partial accumulated
state: every file and subdirectory collected by the earlier successful
calls is retained (the accumulator equals the one produced by those
calls alone, not rolled back), the diagnostic flag is raised, and the
loop merely stops for this directory. -/
theorem C7_theorem (cs : List (Int × List Nat)) (b : List Nat)
    (rest : List (Int × List Nat)) (acc : DecodeAcc)
    (h : ∀ c ∈ cs, 0 < c.1) :
    get_dir_info_loop (cs ++ (-1, b) :: rest) acc =
      ((get_dir_info_loop cs acc).1, true) := by
  induction cs generalizing acc with
  | nil => rfl
  | cons c cs ih =>
      obtain ⟨r, bb⟩ := c
      have hr : 0 < r := h (r, bb) (List.mem_cons_self _ _)
      have hnle : ¬ r ≤ 0 := by omega
      rw [List.cons_append]
      unfold get_dir_info_loop
      rw [if_neg hnle, if_neg hnle]
      exact ih _ (fun c hc => h c (List.mem_cons_of_mem _ hc))

/-- Witness for C7: one successful call yielding a file, then a failing
call; the file is retained and the diagnostic flag is raised. -/
theorem C7_witness :
    get_dir_info_loop ([((1 : Int), bufReg)] ++ ((-1 : Int), []) :: []) initAcc =
      ((get_dir_info_loop [((1 : Int), bufReg)] initAcc).1, true) :=
  C7_theorem [((1 : Int), bufReg)] [] [] initAcc (by decide)

/-! ## Claims about the aggregator -/

/-- Folding the per-file additions of handleDir equals 512 times the sum
of the rounded-up block counts. -/
theorem fileFold (files : List GoFile) (a : Nat) :
    files.foldl (fun s f => s + blocks_from_bytes f.allocSize * 512) a =
      a + 512 * ((files.map (fun f => (f.allocSize + 511) / 512)).sum) := by
  induction files generalizing a with
  | nil => simp
  | cons f fs ih =>
      rw [List.foldl_cons, ih, List.map_cons, List.sum_cons]
      unfold blocks_from_bytes
      ring

mutual

/-- handleDir returns a value exactly when every directory of the tree
can be opened; any failed open panics the run. -/
theorem hd_isSome_aux : ∀ d : FSDir, (handleDir d).isSome = allOpen d
  | FSDir.node op files subs => by
      unfold handleDir allOpen
      cases op with
      | false => simp
      | true =>
          have h := hs_isSome_aux subs
          cases hh : handleSubdirs subs with
          | none => rw [hh] at h; simpa using h.symm
          | some c => rw [hh] at h; simpa using h.symm

/-- handleSubdirs returns a value exactly when every directory of every
listed tree can be opened. -/
theorem hs_isSome_aux : ∀ l : List FSDir, (handleSubdirs l).isSome = allOpenList l
  | [] => by simp [handleSubdirs, allOpenList]
  | d :: ds => by
      unfold handleSubdirs allOpenList
      have h1 := hd_isSome_aux d
      have h2 := hs_isSome_aux ds
      cases hd : handleDir d with
      | none => rw [hd] at h1; simp [← h1]
      | some a =>
          rw [hd] at h1
          cases hds : handleSubdirs ds with
          | none => rw [hds] at h2; simp [← h1, ← h2]
          | some b => rw [hds] at h2; simp [← h1, ← h2]

end

mutual

/-- On a fully openable tree handleDir returns 512 times the sum of the
rounded-up block counts of all files, with no inode deduplication. -/
theorem hd_total_aux : ∀ d : FSDir, allOpen d = true →
    handleDir d = some (512 * ((allFiles d).map (fun f => (f.allocSize + 511) / 512)).sum)
  | FSDir.node op files subs => by
      intro h
      unfold allOpen at h
      rw [Bool.and_eq_true] at h
      unfold handleDir allFiles
      rw [h.1]
      simp only [if_true]
      rw [hs_total_aux subs h.2, fileFold]
      simp [List.map_append, List.sum_append, Nat.mul_add]

/-- List version of the aggregation total on openable trees. -/
theorem hs_total_aux : ∀ l : List FSDir, allOpenList l = true →
    handleSubdirs l = some (512 * ((allFilesList l).map (fun f => (f.allocSize + 511) / 512)).sum)
  | [] => by intro _; simp [handleSubdirs, allFilesList]
  | d :: ds => by
      intro h
      unfold allOpenList at h
      rw [Bool.and_eq_true] at h
      unfold handleSubdirs allFilesList
      rw [hd_total_aux d h.1, hs_total_aux ds h.2]
      simp [List.map_append, List.sum_append, Nat.mul_add]

end

/-- Claim C1: evaluation of the aggregator on the failing input. The
directory linkTree holds two entries that share inode 42 with one
allocated byte each; the claim (and the spec, and the comment above the
loop in handleDir) says the inode is credited once, giving 512, but
handleDir never calls checkAndAddInode and returns 1024, crediting the
shared inode twice. -/
theorem C1_code_evaluation : handleDir linkTree = some 1024 := rfl

/-- Counterexample to C2 as stated: permTree has a readable root, one
unreadable subdirectory and one readable sibling whose file, by the
claim, should make the total 512 with no crash; instead handleDir
panics (modelled by none) because the failed os.Open of the
subdirectory panics inside its goroutine and kills the run. -/
theorem C2_counterexample : handleDir permTree = none := rfl

/-- Claim C2, amended: failure to open any directory of the tree, root
or subdirectory, aborts the whole run by panic; the run produces a
total exactly when every directory of the tree can be opened. No
unreadable subtree is degraded to a partial result. -/
theorem C2_amended_theorem (d : FSDir) : (handleDir d).isSome = allOpen d :=
  hd_isSome_aux d

/-- Counterexample to C3 as stated: on a single one-byte file the
top-level aggregation does not equal the sum of the rounded-up block
counts; handleDir returns 512 while that sum is 1. -/
theorem C3_counterexample : handleDir oneByteTree ≠ some (specTotalBlocks oneByteTree) := by
  decide

/-- Claim C3, amended: for any tree of regular files with no shared
inodes whose directories are all openable, handleDir returns 512 times
the sum over all files of the allocated size divided by 512 rounded
upward, that is each file contributes its allocated size rounded up to
a 512-byte multiple, in bytes rather than in block units. -/
theorem C3_amended_theorem (d : FSDir) (hopen : allOpen d = true)
    (_hnodup : (allInodes d).Nodup) :
    handleDir d = some (512 * specTotalBlocks d) :=
  hd_total_aux d hopen

/-- Witness for C3 on the concrete two-level tree: sizes 1, 513 and 0
give blocks 1, 2 and 0, hence 512 * 3 = 1536. -/
theorem C3_witness : handleDir witnessTree = some 1536 := by
  have h := C3_amended_theorem witnessTree (by decide) (by decide)
  simpa [specTotalBlocks, allFiles, allFilesList] using h

/-! ## Claims about the inode tracker -/

/-- The result of one claim call is the negation of prior visibility of
the inode. -/
theorem check_fst (x : Nat) (s : ShardState) :
    (checkAndAddInode x s).1 = !decide (seen s x) := by
  unfold checkAndAddInode seen
  by_cases h : x ∈ s (shardIdx x)
  · rw [if_pos h]
    simp [h]
  · rw [if_neg h]
    simp [h]

/-- After one claim call an inode is visible exactly when it was the
claimed one or was already visible. -/
theorem seen_check (x y : Nat) (s : ShardState) :
    seen ((checkAndAddInode x s).2) y ↔ (y = x ∨ seen s y) := by
  unfold checkAndAddInode seen
  by_cases h : x ∈ s (shardIdx x)
  · rw [if_pos h]
    constructor
    · exact Or.inr
    · rintro (rfl | hy)
      · exact h
      · exact hy
  · rw [if_neg h]
    simp only
    by_cases hsh : shardIdx y = shardIdx x
    · rw [if_pos hsh]
      rw [List.mem_cons]
    · rw [if_neg hsh]
      constructor
      · exact Or.inr
      · rintro (rfl | hy)
        · exact absurd rfl hsh
        · exact hy

/-- The result of the claim call at position length of pre in any run is
true exactly when the inode neither occurs earlier in the run nor is
already visible in the starting state. -/
theorem runClaims_get (pre : List Nat) :
    ∀ (i : Nat) (post : List Nat) (s : ShardState),
      ((runClaims (pre ++ i :: post) s).1).get? pre.length =
        some (decide (¬ (i ∈ pre ∨ seen s i))) := by
  induction pre with
  | nil =>
      intro i post s
      rw [List.nil_append]
      unfold runClaims
      simp only [List.length_nil, List.get?]
      rw [check_fst]
      simp
  | cons p pre ih =>
      intro i post s
      rw [List.cons_append]
      unfold runClaims
      simp only [List.length_cons, List.get?]
      rw [ih i post ((checkAndAddInode p s).2)]
      congr 1
      rw [decide_eq_decide]
      rw [seen_check]
      simp only [List.mem_cons]
      tauto

/-- Claim C5: in any run started from the empty tracker, the call for a
nonzero inode at any position returns true exactly when no earlier call
claimed the same inode: the first call for each distinct inode returns
true and every later call for it returns false. -/
theorem C5_theorem (pre : List Nat) (i : Nat) (post : List Nat) (_hnz : i ≠ 0) :
    (claimResults (pre ++ i :: post)).get? pre.length = some (decide (i ∉ pre)) := by
  have h := runClaims_get pre i post initShards
  have hs : ¬ seen initShards i := by simp [seen, initShards]
  unfold claimResults
  rw [h]
  congr 1
  rw [decide_eq_decide]
  tauto

/-- Witness for C5: in the run 5, 5 the second call for inode 5 returns
false. -/
theorem C5_witness : (claimResults [5, 5]).get? 1 = some false := by
  have h := C5_theorem [5] 5 [] (by decide)
  simpa using h

/-- Counterexample to C6 as stated: in the run 0, 0 the second claim
for inode value 0 returns false, refused precisely because of the
earlier claim for 0 — zero values are deduplicated against each other
by checkAndAddInode. -/
theorem C6_counterexample : claimResults [0, 0] = [true, false] := by decide

/-- Claim C6, amended: checkAndAddInode treats inode value 0 like every
other value, with no special case: a claim for 0 is refused exactly
when an earlier call of the run already claimed 0. (In the shipped
program handleDir never calls checkAndAddInode, so unreported inodes
are indeed each counted, but not by virtue of a zero special case.) -/
theorem C6_amended_theorem (pre : List Nat) (post : List Nat) :
    (claimResults (pre ++ 0 :: post)).get? pre.length = some (decide (0 ∉ pre)) := by
  have h := runClaims_get pre 0 post initShards
  have hs : ¬ seen initShards 0 := by simp [seen, initShards]
  unfold claimResults
  rw [h]
  congr 1
  rw [decide_eq_decide]
  tauto
